import Mathlib

/-!
Verification development for the phosphor-tabs `TabBar` widget
(`src/tabbar.ts`).  The tab bar's observable state (title collection,
current selection, drag session, document listeners, DOM drag styling)
is embedded as a Lean structure, and the public operations are
translated function by function from the TypeScript source.  The
mousemove / mouseup drag handlers are not present in `src/tabbar.ts`
(their dispatch cases are commented out of `handleEvent`); those two
handlers are modelled from the specification, as marked on their doc
comments.  Machine integers: TypeScript `index | 0` (ToInt32) is made
explicit as `toInt32`.
-/

/-- A title record as referenced by the tab bar.  Identity (JS `===`)
is modelled by the `id` field; only `closable` matters behaviourally. -/
structure TabTitle where
  id : Nat
  closable : Bool
deriving DecidableEq

/-- A DOM client rectangle (viewport coordinates). -/
structure Rect where
  left : Int
  top : Int
  right : Int
  bottom : Int
deriving DecidableEq

/-- Layout data snapshot for one tab (`ITabLayout` in the source). -/
structure TabLayout where
  margin : Int
  left : Int
  width : Int
deriving DecidableEq

/-- The drag data struct (`DragData` in the source).  `cursorGrab` is
tracked as a flag on the owning state (`cursorActive`), and the `tab`
DOM node is identified by `tabIndex`. -/
structure DragData where
  title : TabTitle
  tabIndex : Nat
  tabLeft : Int
  tabWidth : Int
  tabPressX : Int
  tabTargetIndex : Int
  tabLayout : Option (List TabLayout)
  pressX : Int
  pressY : Int
  contentRect : Option Rect
  dragActive : Bool
  detachRequested : Bool
deriving DecidableEq

/-- Notifications emitted through the tab bar's signals. -/
inductive TabEvent where
  | currentChanged : Option TabTitle → Option TabTitle → TabEvent
  | tabCloseRequested : TabTitle → TabEvent
  | tabMoved : TabTitle → Nat → Nat → TabEvent
  | tabDetachRequested : TabTitle → Nat → Int → Int → TabEvent
deriving DecidableEq

/-- The observable state of one `TabBar` instance: the `_titles`
array, the stored `currentTitle` property value, `_tabsMovable`,
`_dirty`, the set of titles whose `changed` signal is connected, the
`_dragData` reference, whether the document capture listeners are
installed, and the DOM drag styling that `_releaseMouse` undoes
(per-tab `style.left` overrides, per-tab dragging class, the bar's
dragging class, and the cursor override). -/
structure TabBarState where
  titles : List TabTitle
  currentTitle : Option TabTitle
  tabsMovable : Bool
  dirty : Bool
  connected : List TabTitle
  dragData : Option DragData
  docListeners : Bool
  tabLefts : List (Option Int)
  tabDragClass : List Bool
  barDragClass : Bool
  cursorActive : Bool
deriving DecidableEq

/-- A mouse event as consumed by the handlers: button, clientX, clientY. -/
structure MouseEvt where
  button : Nat
  clientX : Int
  clientY : Int
deriving DecidableEq

/-- The DOM geometry consulted by the press/click handlers: the
bounding rect of each tab node (in visual order, matching the title
order after an update pass) and, per tab, whether the event target
lies inside that tab's close-icon node. -/
structure PressEnv where
  tabRects : List Rect
  closeIconHit : List Bool
  tabOffsetLefts : List Int
deriving DecidableEq

/-- The DOM geometry consulted by the move handler: the content node's
bounding rect and the layout snapshot data for each tab. -/
structure Geometry where
  contentRect : Rect
  tabLayout : List TabLayout
deriving DecidableEq

/-- The start drag distance threshold (`DRAG_THRESHOLD`). -/
def dragThreshold : Nat := 5

/-- The tear-off distance threshold (`TEAR_OFF_THRESHOLD`). -/
def tearOffThreshold : Int := 20

/-- JavaScript ToInt32 (`index | 0`) on an integral number. -/
def toInt32 (x : Int) : Int := (x + 2 ^ 31) % 2 ^ 32 - 2 ^ 31

/-- `array.indexOf(t)` restricted to positions: first index of `t`. -/
def findPos (t : TabTitle) : List TabTitle → Option Nat
  | [] => none
  | x :: xs => if x = t then some 0 else (findPos t xs).map (· + 1)

/-- `titleIndex` from the source: `this._titles.indexOf(title)`. -/
def indexOfTitle (ts : List TabTitle) (t : TabTitle) : Int :=
  match findPos t ts with
  | some k => (k : Int)
  | none => -1

/-- `arrays.insert` with already-clamped index: splice `v` in at `j`
(appending at the end when `j` is at or past the length). -/
def insertAt : List α → Nat → α → List α
  | [], _, v => [v]
  | x :: xs, 0, v => v :: x :: xs
  | x :: xs, j + 1, v => x :: insertAt xs j v

/-- `arrays.removeAt` with an in-range index: drop position `i`. -/
def removeAtL : List α → Nat → List α
  | [], _ => []
  | _ :: xs, 0 => xs
  | x :: xs, i + 1 => x :: removeAtL xs i

/-- `arrays.move(array, i, j)`: no-op when either index is out of
range, otherwise remove position `i` and re-insert the value at `j`. -/
def moveList (xs : List α) (i j : Int) : List α :=
  if i < 0 ∨ (xs.length : Int) ≤ i then xs
  else if j < 0 ∨ (xs.length : Int) ≤ j then xs
  else
    match xs.get? i.toNat with
    | some v => insertAt (removeAtL xs i.toNat) j.toNat v
    | none => xs

/-- The coerce handler for the `currentTitle` property:
`(value && owner.titleIndex(value) !== -1) ? value : null`. -/
def coerceCurrentTitle (s : TabBarState) (v : Option TabTitle) : Option TabTitle :=
  match v with
  | some t => if indexOfTitle s.titles t = -1 then none else some t
  | none => none

/-- `currentTitleProperty.set`: coerce the value, and when the result
differs from the stored value, store it and emit `currentChanged`
with the old and new values. -/
def setCurrentTitle (s : TabBarState) (v : Option TabTitle) : TabBarState × List TabEvent :=
  let nv := coerceCurrentTitle s v
  if nv = s.currentTitle then (s, [])
  else ({ s with currentTitle := nv }, [TabEvent.currentChanged s.currentTitle nv])

/-- The claimed selection invariant, as an executable check: the
stored current title, when non-null, is a member of the collection. -/
def currentValidB (s : TabBarState) : Bool :=
  match s.currentTitle with
  | none => true
  | some t => (findPos t s.titles).isSome

/-- `_releaseMouse`: bail if no drag session; otherwise clear the
session reference, remove the document capture listeners, and — only
when the drag had become active — reset every tab node's `style.left`,
dispose the cursor override, and clear the dragging classes on the
dragged tab and the bar. -/
def releaseMouseFn (s : TabBarState) : TabBarState :=
  match s.dragData with
  | none => s
  | some data =>
    let s1 := { s with dragData := none, docListeners := false }
    if data.dragActive = false then s1
    else
      { s1 with
        tabLefts := s1.tabLefts.map (fun _ => none),
        cursorActive := false,
        tabDragClass := s1.tabDragClass.set data.tabIndex false,
        barDragClass := false }

/-- The resolved insertion index for a title that is not yet a
member: `let j = Math.max(0, Math.min(index | 0, n))`. -/
def clampNew (index : Int) (n : Nat) : Int :=
  max 0 (min (toInt32 index) (n : Int))

/-- The resolved index for a title that is already a member:
`if (j === n) j--` applied to the new-title clamp. -/
def clampMove (index : Int) (n : Nat) : Int :=
  if clampNew index n = (n : Int) then clampNew index n - 1 else clampNew index n

/-- `insertTitle(index, title)` from the source. -/
def insertTitle (s : TabBarState) (index : Int) (title : TabTitle) :
    TabBarState × List TabEvent :=
  let s := releaseMouseFn s
  let i : Int := indexOfTitle s.titles title
  if i ≠ -1 then
    let j2 := clampMove index s.titles.length
    if i = j2 then (s, [])
    else ({ s with titles := moveList s.titles i j2, dirty := true }, [])
  else
    let s1 := { s with
      titles := insertAt s.titles (clampNew index s.titles.length).toNat title,
      connected := s.connected ++ [title] }
    if s1.currentTitle = none then
      let r := setCurrentTitle s1 (some title)
      ({ r.1 with dirty := true }, r.2)
    else
      ({ s1 with dirty := true }, [])

/-- The intermediate state of `insertTitle` on a fresh title, after
the splice and the `changed` subscription but before the dirty flag
and the possible current-title assignment. -/
def insertedState (s : TabBarState) (index : Int) (t : TabTitle) : TabBarState :=
  { releaseMouseFn s with
    titles := insertAt s.titles (clampNew index s.titles.length).toNat t,
    connected := (releaseMouseFn s).connected ++ [t] }

/-- `this._titles[i] || this._titles[i - 1]` after the removal: the
title now at the removed index, else the new last title, else null. -/
def nextTitle (ts : List TabTitle) (k : Nat) : Option TabTitle :=
  match ts.get? k with
  | some t2 => some t2
  | none => ts.get? (k - 1)

/-- `removeTitleAt(index)` from the source. -/
def removeTitleAt (s : TabBarState) (index : Int) : TabBarState × List TabEvent :=
  let s := releaseMouseFn s
  let i : Int := toInt32 index
  if i < 0 ∨ (s.titles.length : Int) ≤ i then (s, [])
  else
    match s.titles.get? i.toNat with
    | none => (s, [])
    | some title =>
      let k := i.toNat
      let s1 := { s with
        titles := removeAtL s.titles k,
        connected := s.connected.erase title }
      if s1.currentTitle = some title then
        let r := setCurrentTitle s1 (nextTitle s1.titles k)
        ({ r.1 with dirty := true }, r.2)
      else
        ({ s1 with dirty := true }, [])

/-- The intermediate state of `removeTitleAt`, after the removal and
the `changed` unsubscription but before the dirty flag and the
possible current-title reassignment. -/
def removedState (s : TabBarState) (k : Nat) (t : TabTitle) : TabBarState :=
  { releaseMouseFn s with
    titles := removeAtL s.titles k,
    connected := (releaseMouseFn s).connected.erase t }

/-- `removeTitle(title)`: remove by the title's current index. -/
def removeTitle (s : TabBarState) (title : TabTitle) : TabBarState × List TabEvent :=
  removeTitleAt s (indexOfTitle s.titles title)

/-- Repeated `disconnect` of each popped title's change handler. -/
def clearConn (c : List TabTitle) (ts : List TabTitle) : List TabTitle :=
  ts.reverse.foldl (fun acc t => acc.erase t) c

/-- `clearTitles()` from the source: release the mouse, pop and
disconnect every title, set the dirty flag.  The stored
`currentTitle` value is not touched. -/
def clearTitles (s : TabBarState) : TabBarState × List TabEvent :=
  let s := releaseMouseFn s
  ({ s with
      titles := [],
      connected := clearConn s.connected s.titles,
      dirty := true }, [])

/-- `dispose()` as written in this class: release the mouse and empty
the title array.  (The `super.dispose()` call into the external widget
base is outside this embedding.) -/
def disposeBar (s : TabBarState) : TabBarState :=
  let s := releaseMouseFn s
  { s with titles := [] }

/-- `hitTest` from phosphor-domutil:
`x >= rect.left && x < rect.right && y >= rect.top && y < rect.bottom`. -/
def hitTestRect (r : Rect) (x y : Int) : Bool :=
  decide (r.left ≤ x) && decide (x < r.right) &&
  decide (r.top ≤ y) && decide (y < r.bottom)

/-- `hitTestTabs`: index of the first tab node containing the point,
or `-1`. -/
def hitTestTabs (rects : List Rect) (x y : Int) : Int :=
  match rects.findIdx? (fun r => hitTestRect r x y) with
  | some k => (k : Int)
  | none => -1

/-- `_evtClick`: returns whether propagation was stopped, and the
emitted notifications. -/
def evtClick (env : PressEnv) (s : TabBarState) (e : MouseEvt) :
    Bool × List TabEvent :=
  if e.button ≠ 0 then (false, [])
  else
    let i := hitTestTabs env.tabRects e.clientX e.clientY
    if i < 0 then (false, [])
    else
      let k := i.toNat
      match s.titles.get? k with
      | none => (true, [])
      | some title =>
        if title.closable = false then (true, [])
        else if env.closeIconHit.getD k false = false then (true, [])
        else (true, [TabEvent.tabCloseRequested title])

/-- `_evtMouseDown` from the source: left button only, no session
already open, press must hit a tab, presses on the close icon are
swallowed; when `tabsMovable` a drag session is opened and the
document capture listeners installed; finally the current title is
set to the pressed title. -/
def evtMouseDown (env : PressEnv) (s : TabBarState) (e : MouseEvt) :
    TabBarState × List TabEvent :=
  if e.button ≠ 0 then (s, [])
  else if s.dragData.isSome then (s, [])
  else
    let i := hitTestTabs env.tabRects e.clientX e.clientY
    if i < 0 then (s, [])
    else
      let k := i.toNat
      if env.closeIconHit.getD k false = true then (s, [])
      else
        match s.titles.get? k, env.tabRects.get? k with
        | some title, some tabRect =>
          let s1 :=
            if s.tabsMovable then
              { s with
                dragData := some {
                  title := title
                  tabIndex := k
                  tabLeft := env.tabOffsetLefts.getD k 0
                  tabWidth := tabRect.right - tabRect.left
                  tabPressX := e.clientX - tabRect.left
                  tabTargetIndex := -1
                  tabLayout := none
                  pressX := e.clientX
                  pressY := e.clientY
                  contentRect := none
                  dragActive := false
                  detachRequested := false }
                docListeners := true }
            else s
          setCurrentTitle s1 (some title)
        | _, _ => (s, [])

/-- Modelled from the spec: the tear-off excursion test — the pointer
leaves the content area's bounding box, on any of the four sides, by
more than the tear-off threshold. -/
def detachExcursion (cr : Rect) (e : MouseEvt) : Bool :=
  decide (e.clientX < cr.left - tearOffThreshold) ||
  decide (cr.right + tearOffThreshold < e.clientX) ||
  decide (e.clientY < cr.top - tearOffThreshold) ||
  decide (cr.bottom + tearOffThreshold < e.clientY)

/-- Modelled from the spec: the dragged tab's content-local left
offset while dragging — the pointer delta from the tab-local press
point, clamped so the tab cannot leave the content area's horizontal
extent. -/
def clampTabLeft (cr : Rect) (d : DragData) (clientX : Int) : Int :=
  max 0 (min (clientX - cr.left - d.tabPressX) (cr.right - cr.left - d.tabWidth))

/-- Modelled from the spec: the pending reorder target — the
drag-start snapshot slot whose horizontal extent the dragged tab's
center currently overlaps, defaulting to the starting index. -/
def targetSlot (layout : List TabLayout) (center : Int) (fallback : Nat) : Nat :=
  match layout.findIdx? (fun tl => decide (tl.left ≤ center) &&
      decide (center < tl.left + tl.width)) with
  | some k => k
  | none => fallback

/-- Modelled from the spec: drag activation on the first move past
the threshold — the session becomes active and the layout snapshot
and content rect are captured; an already-active session is kept. -/
def activateDrag (geo : Geometry) (d : DragData) : DragData :=
  if d.dragActive then d
  else { d with
    dragActive := true
    tabLayout := some geo.tabLayout
    contentRect := some geo.contentRect }

/-- Modelled from the spec: the `'mousemove'` handler, which is
dispatched from `handleEvent` in the source but whose implementation
is not present in `src/tabbar.ts` (its dispatch case is commented
out; the `DragData` fields `tabTargetIndex` and `detachRequested`
declare its state).  Per spec §4.2: while Pressed, a move that stays
within the drag-start threshold in both axes is ignored; once the
threshold is exceeded the drag becomes active (dragging styles and a
cursor override are installed, and the layout snapshot and content
rect are captured).  A pointer excursion past the tear-off threshold
outside the content rect triggers a one-shot detach-requested
notification carrying the dragged title, its original index and the
live pointer coordinates.  While dragging and not detach-requested,
the dragged tab's offset tracks the pointer (clamped to the content
area's horizontal extent) and the pending reorder target is the
snapshot slot overlapped by the dragged tab's center.  The sibling
tabs' make-room shifting is visual only and is not tracked. -/
def evtMouseMove (geo : Geometry) (s : TabBarState) (e : MouseEvt) :
    TabBarState × List TabEvent :=
  match s.dragData with
  | none => (s, [])
  | some d =>
    if d.dragActive = false ∧ (e.clientX - d.pressX).natAbs < dragThreshold ∧
        (e.clientY - d.pressY).natAbs < dragThreshold then
      (s, [])
    else
      let d1 := activateDrag geo d
      let s1 :=
        if d.dragActive then { s with dragData := some d1 }
        else
          { s with
            dragData := some d1
            barDragClass := true
            tabDragClass := s.tabDragClass.set d1.tabIndex true
            cursorActive := true }
      let cr := d1.contentRect.getD geo.contentRect
      if d1.detachRequested = false ∧ detachExcursion cr e = true then
        let d2 := { d1 with detachRequested := true }
        ({ s1 with dragData := some d2 },
         [TabEvent.tabDetachRequested d1.title d1.tabIndex e.clientX e.clientY])
      else if d1.detachRequested = true then
        (s1, [])
      else
        let layout := d1.tabLayout.getD geo.tabLayout
        let tabLeft := clampTabLeft cr d1 e.clientX
        let center := tabLeft + d1.tabWidth / 2
        let tgt := targetSlot layout center d1.tabIndex
        let d3 := { d1 with tabTargetIndex := (tgt : Int) }
        ({ s1 with
            dragData := some d3
            tabLefts := s1.tabLefts.set d1.tabIndex (some tabLeft) }, [])

/-- Modelled from the spec: the `'mouseup'` handler, which is also
not present in `src/tabbar.ts`.  Per spec §4.2: a left-button release
with an open session removes the document capture listeners; if the
drag never became active the session is discarded with no reorder and
no detach; otherwise the drag styling, position overrides and cursor
override are cleared (the real code defers part of this by the
transition duration; the settled end state is modelled synchronously)
and, when a pending reorder target has been recorded that differs
from the starting index, the collection's move operation relocates
the title and a tab-moved notification fires with the title, its
from-index and its to-index. -/
def evtMouseUp (s : TabBarState) (e : MouseEvt) : TabBarState × List TabEvent :=
  match s.dragData with
  | none => (s, [])
  | some d =>
    if e.button ≠ 0 then (s, [])
    else
      let s1 := { s with dragData := none, docListeners := false }
      if d.dragActive = false then (s1, [])
      else
        let s2 := { s1 with
          tabLefts := s1.tabLefts.map (fun _ => none)
          tabDragClass := s1.tabDragClass.set d.tabIndex false
          barDragClass := false
          cursorActive := false }
        if 0 ≤ d.tabTargetIndex ∧ d.tabTargetIndex ≠ (d.tabIndex : Int) then
          ({ s2 with
              titles := moveList s2.titles (d.tabIndex : Int) d.tabTargetIndex
              dirty := true },
           [TabEvent.tabMoved d.title d.tabIndex d.tabTargetIndex.toNat])
        else (s2, [])

/-- Run a sequence of mousemove events, concatenating the emitted
notifications. -/
def runMoves (geo : Geometry) : TabBarState → List MouseEvt → TabBarState × List TabEvent
  | s, [] => (s, [])
  | s, e :: es =>
    let r := evtMouseMove geo s e
    let rest := runMoves geo r.1 es
    (rest.1, r.2 ++ rest.2)

/-! ### Concrete states used for witnesses and counterexamples -/

/-- A sample non-closable title. -/
def tA : TabTitle := ⟨0, false⟩

/-- A second sample title, closable. -/
def tB : TabTitle := ⟨1, true⟩

/-- An idle, freshly constructed tab bar. -/
def initState : TabBarState :=
  { titles := [], currentTitle := none, tabsMovable := false,
    dirty := false, connected := [], dragData := none,
    docListeners := false, tabLefts := [],
    tabDragClass := [], barDragClass := false, cursorActive := false }

/-- A tab bar holding the single title `tA`, which is current. -/
def st1 : TabBarState :=
  { titles := [tA], currentTitle := some tA, tabsMovable := false,
    dirty := false, connected := [tA], dragData := none,
    docListeners := false, tabLefts := [none],
    tabDragClass := [false], barDragClass := false, cursorActive := false }

/-- A movable tab bar holding `[tA, tB]`, `tA` current, no session. -/
def exState : TabBarState :=
  { titles := [tA, tB], currentTitle := some tA, tabsMovable := true,
    dirty := false, connected := [tA, tB], dragData := none,
    docListeners := false, tabLefts := [none, none],
    tabDragClass := [false, false], barDragClass := false, cursorActive := false }

/-- Concrete DOM geometry for `exState`: two 100px-wide, 20px-tall
tabs side by side from the origin. -/
def exEnv : PressEnv :=
  { tabRects := [⟨0, 0, 100, 20⟩, ⟨100, 0, 200, 20⟩],
    closeIconHit := [false, false], tabOffsetLefts := [0, 100] }

/-- The matching content-node geometry for `exState`. -/
def exGeo : Geometry :=
  { contentRect := ⟨0, 0, 200, 20⟩, tabLayout := [⟨0, 0, 100⟩, ⟨0, 100, 100⟩] }

/-- A left-button press in the middle of the second tab. -/
def exPress : MouseEvt := ⟨0, 150, 10⟩

/-- A leftward move, past the drag threshold, into the first tab. -/
def exBigMove : MouseEvt := ⟨0, 10, 10⟩

/-- A leftward move past the content area's left edge by more than
the tear-off threshold. -/
def exFarMove : MouseEvt := ⟨0, -30, 10⟩

/-- The state mid-drag: `exPress` on tab `tB` followed by `exBigMove`,
which activates the drag and records reorder target slot 0. -/
def exDragState : TabBarState :=
  (evtMouseMove exGeo (evtMouseDown exEnv exState exPress).1 exBigMove).1

/-- The drag session data held by `exDragState`. -/
def exDrag : DragData :=
  { title := tB, tabIndex := 1, tabLeft := 100, tabWidth := 100,
    tabPressX := 50, tabTargetIndex := 0,
    tabLayout := some [⟨0, 0, 100⟩, ⟨0, 100, 100⟩],
    pressX := 150, pressY := 10, contentRect := some ⟨0, 0, 200, 20⟩,
    dragActive := true, detachRequested := false }

/-- The state right after `exPress`: session open, drag not active. -/
def exPressedState : TabBarState := (evtMouseDown exEnv exState exPress).1

/-- The session data held by `exPressedState`. -/
def exDrag0 : DragData :=
  { title := tB, tabIndex := 1, tabLeft := 100, tabWidth := 100,
    tabPressX := 50, tabTargetIndex := -1, tabLayout := none,
    pressX := 150, pressY := 10, contentRect := none,
    dragActive := false, detachRequested := false }

/-! ### Supporting lemmas -/

lemma findPos_isSome_iff (t : TabTitle) (ts : List TabTitle) :
    (findPos t ts).isSome = true ↔ t ∈ ts := by
  induction ts with
  | nil => simp [findPos]
  | cons x xs ih =>
    by_cases h : x = t <;> simp [findPos, h, ih]
    exact fun hx => (h hx.symm).elim

lemma findPos_get (t : TabTitle) (ts : List TabTitle) (k : Nat)
    (h : findPos t ts = some k) : ts.get? k = some t := by
  induction ts generalizing k with
  | nil => simp [findPos] at h
  | cons x xs ih =>
    by_cases hx : x = t
    · simp [findPos, hx] at h
      subst h
      simp [hx]
    · simp [findPos, hx] at h
      obtain ⟨m, hm, rfl⟩ := h
      simpa using ih m hm

lemma indexOfTitle_neg1_iff (ts : List TabTitle) (t : TabTitle) :
    indexOfTitle ts t = -1 ↔ t ∉ ts := by
  rw [← findPos_isSome_iff t ts]
  unfold indexOfTitle
  cases findPos t ts with
  | none => simp
  | some k =>
    simp only [Option.isSome_some, not_true, iff_false]
    omega

lemma indexOfTitle_of_findPos (ts : List TabTitle) (t : TabTitle) (k : Nat)
    (h : findPos t ts = some k) : indexOfTitle ts t = (k : Int) := by
  unfold indexOfTitle
  rw [h]

lemma insertAt_perm (v : α) : ∀ (xs : List α) (j : Nat),
    (insertAt xs j v).Perm (v :: xs)
  | [], _ => by simp [insertAt]
  | x :: xs, 0 => by simp [insertAt]
  | x :: xs, j + 1 =>
    ((insertAt_perm v xs j).cons x).trans (List.Perm.swap v x xs)

lemma insertAt_length (v : α) : ∀ (xs : List α) (j : Nat),
    (insertAt xs j v).length = xs.length + 1 := by
  intro xs j
  simpa using (insertAt_perm v xs j).length_eq

lemma insertAt_get_self (v : α) : ∀ (xs : List α) (j : Nat), j ≤ xs.length →
    (insertAt xs j v).get? j = some v
  | [], j, h => by
    have hj : j = 0 := by simpa using h
    subst hj
    rfl
  | x :: xs, 0, _ => rfl
  | x :: xs, j + 1, h => by
    simpa [insertAt] using insertAt_get_self v xs j (by simpa using h)

lemma removeAtL_perm (v : α) : ∀ (xs : List α) (k : Nat), xs.get? k = some v →
    xs.Perm (v :: removeAtL xs k)
  | [], k, h => by simp at h
  | x :: xs, 0, h => by
    simp at h
    subst h
    simp [removeAtL]
  | x :: xs, k + 1, h =>
    ((removeAtL_perm v xs k (by simpa using h)).cons x).trans
      (List.Perm.swap v x (removeAtL xs k))

lemma removeAtL_length : ∀ (xs : List α) (k : Nat), k < xs.length →
    (removeAtL xs k).length = xs.length - 1
  | [], k, h => by simp at h
  | _ :: xs, 0, _ => by simp [removeAtL]
  | x :: xs, k + 1, h => by
    have hk : k < xs.length := by simpa using h
    have ih := removeAtL_length xs k hk
    simp only [removeAtL, List.length_cons, ih]
    omega

lemma mem_removeAtL_of_ne (a v : α) : ∀ (xs : List α) (k : Nat),
    xs.get? k = some v → a ∈ xs → a ≠ v → a ∈ removeAtL xs k
  | [], k, h, _, _ => by simp at h
  | x :: xs, 0, h, ha, hne => by
    simp at h
    subst h
    simp [removeAtL]
    rcases List.mem_cons.mp ha with h1 | h1
    · exact (hne h1).elim
    · exact h1
  | x :: xs, k + 1, h, ha, hne => by
    simp only [removeAtL, List.mem_cons]
    rcases List.mem_cons.mp ha with h1 | h1
    · exact Or.inl h1
    · exact Or.inr (mem_removeAtL_of_ne a v xs k (by simpa using h) h1 hne)

lemma moveList_perm (xs : List α) (i j : Int) : (moveList xs i j).Perm xs := by
  unfold moveList
  split
  · exact List.Perm.refl xs
  split
  · exact List.Perm.refl xs
  cases h : xs.get? i.toNat with
  | none => exact List.Perm.refl xs
  | some v =>
    exact (insertAt_perm v (removeAtL xs i.toNat) j.toNat).trans
      (removeAtL_perm v xs i.toNat h).symm

lemma moveList_get_self (xs : List α) (i j : Nat) (v : α)
    (hi : xs.get? i = some v) (hj : j < xs.length) :
    (moveList xs (i : Int) (j : Int)).get? j = some v := by
  have hilt : i < xs.length := (List.get?_eq_some.mp hi).1
  unfold moveList
  have h1 : ¬((i : Int) < 0 ∨ (xs.length : Int) ≤ (i : Int)) := by
    push_neg
    constructor
    · exact Int.ofNat_nonneg i
    · exact_mod_cast hilt
  have h2 : ¬((j : Int) < 0 ∨ (xs.length : Int) ≤ (j : Int)) := by
    push_neg
    constructor
    · exact Int.ofNat_nonneg j
    · exact_mod_cast hj
  rw [if_neg h1, if_neg h2]
  rw [Int.toNat_ofNat, Int.toNat_ofNat, hi]
  apply insertAt_get_self
  rw [removeAtL_length xs i hilt]
  omega

lemma releaseMouse_titles (s : TabBarState) : (releaseMouseFn s).titles = s.titles := by
  unfold releaseMouseFn
  cases s.dragData with
  | none => rfl
  | some d =>
    by_cases h : d.dragActive = false <;> simp [h]

lemma releaseMouse_currentTitle (s : TabBarState) :
    (releaseMouseFn s).currentTitle = s.currentTitle := by
  unfold releaseMouseFn
  cases s.dragData with
  | none => rfl
  | some d =>
    by_cases h : d.dragActive = false <;> simp [h]

lemma releaseMouse_of_none (s : TabBarState) (h : s.dragData = none) :
    releaseMouseFn s = s := by
  unfold releaseMouseFn
  rw [h]

lemma releaseMouse_dragData (s : TabBarState) : (releaseMouseFn s).dragData = none ∨
    releaseMouseFn s = s := by
  unfold releaseMouseFn
  cases s.dragData with
  | none => exact Or.inr rfl
  | some d =>
    left
    by_cases h : d.dragActive = false <;> simp [h]

lemma setCurrentTitle_titles (s : TabBarState) (v : Option TabTitle) :
    (setCurrentTitle s v).1.titles = s.titles := by
  simp only [setCurrentTitle]
  split <;> rfl

lemma coerce_none (s : TabBarState) : coerceCurrentTitle s none = none := rfl

lemma coerce_member (s : TabBarState) (t : TabTitle) (h : t ∈ s.titles) :
    coerceCurrentTitle s (some t) = some t := by
  simp only [coerceCurrentTitle]
  rw [if_neg]
  rw [indexOfTitle_neg1_iff]
  exact fun hn => hn h

lemma coerce_not_member (s : TabBarState) (t : TabTitle) (h : t ∉ s.titles) :
    coerceCurrentTitle s (some t) = none := by
  simp only [coerceCurrentTitle]
  rw [if_pos ((indexOfTitle_neg1_iff s.titles t).mpr h)]

lemma setCurrentTitle_eq_coerce (s : TabBarState) (v : Option TabTitle) :
    (setCurrentTitle s v).1.currentTitle = coerceCurrentTitle s v := by
  simp only [setCurrentTitle]
  split
  · next h => exact h.symm
  · rfl

lemma setCurrentTitle_member (s : TabBarState) (t : TabTitle) (h : t ∈ s.titles) :
    (setCurrentTitle s (some t)).1.currentTitle = some t := by
  rw [setCurrentTitle_eq_coerce, coerce_member s t h]

lemma setCurrentTitle_none_val (s : TabBarState) :
    (setCurrentTitle s none).1.currentTitle = none := by
  rw [setCurrentTitle_eq_coerce, coerce_none]

lemma currentValidB_iff (s : TabBarState) :
    currentValidB s = true ↔ ∀ t, s.currentTitle = some t → t ∈ s.titles := by
  unfold currentValidB
  cases h : s.currentTitle with
  | none => simp
  | some t =>
    rw [findPos_isSome_iff]
    constructor
    · intro hm t2 ht2
      cases ht2
      exact hm
    · intro hall
      exact hall t rfl

lemma setCurrentTitle_valid (s : TabBarState) (v : Option TabTitle) :
    currentValidB (setCurrentTitle s v).1 = true := by
  rw [currentValidB_iff]
  intro t ht
  rw [setCurrentTitle_titles]
  rw [setCurrentTitle_eq_coerce] at ht
  cases v with
  | none => simp [coerce_none] at ht
  | some t2 =>
    simp only [coerceCurrentTitle] at ht
    by_cases h : indexOfTitle s.titles t2 = -1
    · rw [if_pos h] at ht
      cases ht
    · rw [if_neg h] at ht
      cases ht
      rw [indexOfTitle_neg1_iff] at h
      exact not_not.mp h

lemma clampNew_nonneg (index : Int) (n : Nat) : 0 ≤ clampNew index n :=
  le_max_left 0 _

lemma clampNew_le (index : Int) (n : Nat) : clampNew index n ≤ (n : Int) :=
  max_le (Int.ofNat_nonneg n) (min_le_right _ _)

lemma clampMove_bounds (index : Int) (n : Nat) (hn : 1 ≤ n) :
    0 ≤ clampMove index n ∧ clampMove index n < (n : Int) := by
  have h1 := clampNew_nonneg index n
  have h2 := clampNew_le index n
  unfold clampMove
  split
  · next he => omega
  · next he => omega

lemma currentValidB_releaseMouse (s : TabBarState) :
    currentValidB (releaseMouseFn s) = currentValidB s := by
  unfold currentValidB
  rw [releaseMouse_titles, releaseMouse_currentTitle]

lemma insertTitle_member_shape (s : TabBarState) (index : Int) (t : TabTitle) (k : Nat)
    (hk : findPos t s.titles = some k) :
    ((k : Int) = clampMove index s.titles.length →
      insertTitle s index t = (releaseMouseFn s, [])) ∧
    ((k : Int) ≠ clampMove index s.titles.length →
      insertTitle s index t =
        ({ releaseMouseFn s with
            titles := moveList s.titles (k : Int) (clampMove index s.titles.length),
            dirty := true }, [])) := by
  have hti := releaseMouse_titles s
  have hidx : indexOfTitle s.titles t = (k : Int) :=
    indexOfTitle_of_findPos _ _ _ hk
  constructor
  · intro he
    simp only [insertTitle, hti, hidx]
    rw [if_pos (by omega : (k : Int) ≠ -1), if_pos he]
  · intro he
    simp only [insertTitle, hti, hidx]
    rw [if_pos (by omega : (k : Int) ≠ -1), if_neg he]

lemma insertedState_titles (s : TabBarState) (index : Int) (t : TabTitle) :
    (insertedState s index t).titles =
      insertAt s.titles (clampNew index s.titles.length).toNat t := rfl

lemma insertedState_current (s : TabBarState) (index : Int) (t : TabTitle) :
    (insertedState s index t).currentTitle = s.currentTitle :=
  releaseMouse_currentTitle s

lemma insertTitle_new_shape (s : TabBarState) (index : Int) (t : TabTitle)
    (hmem : t ∉ s.titles) :
    insertTitle s index t =
      (if s.currentTitle = none then
        ({ (setCurrentTitle (insertedState s index t) (some t)).1 with dirty := true },
         (setCurrentTitle (insertedState s index t) (some t)).2)
      else ({ insertedState s index t with dirty := true }, [])) := by
  have hti := releaseMouse_titles s
  have hcu := releaseMouse_currentTitle s
  have hidx : indexOfTitle s.titles t = -1 :=
    (indexOfTitle_neg1_iff _ _).mpr hmem
  simp only [insertTitle, insertedState, hti, hcu, hidx]
  rw [if_neg (by simp : ¬ ((-1 : Int) ≠ -1))]

lemma mem_insertedState_self (s : TabBarState) (index : Int) (t : TabTitle) :
    t ∈ (insertedState s index t).titles := by
  rw [insertedState_titles]
  exact (insertAt_perm t s.titles _).mem_iff.mpr (List.mem_cons_self t s.titles)

lemma insertTitle_new_titles (s : TabBarState) (index : Int) (t : TabTitle)
    (hmem : t ∉ s.titles) :
    (insertTitle s index t).1.titles =
      insertAt s.titles (clampNew index s.titles.length).toNat t := by
  rw [insertTitle_new_shape s index t hmem]
  by_cases h0 : s.currentTitle = none
  · rw [if_pos h0]
    show (setCurrentTitle (insertedState s index t) (some t)).1.titles = _
    rw [setCurrentTitle_titles, insertedState_titles]
  · rw [if_neg h0]
    exact insertedState_titles s index t

lemma insertTitle_new_current (s : TabBarState) (index : Int) (t : TabTitle)
    (hmem : t ∉ s.titles) :
    (insertTitle s index t).1.currentTitle =
      (if s.currentTitle = none then some t else s.currentTitle) := by
  rw [insertTitle_new_shape s index t hmem]
  by_cases h0 : s.currentTitle = none
  · rw [if_pos h0, if_pos h0]
    show (setCurrentTitle (insertedState s index t) (some t)).1.currentTitle = some t
    exact setCurrentTitle_member _ t (mem_insertedState_self s index t)
  · rw [if_neg h0, if_neg h0]
    exact insertedState_current s index t

lemma removedState_titles (s : TabBarState) (k : Nat) (t : TabTitle) :
    (removedState s k t).titles = removeAtL s.titles k := rfl

lemma removedState_current (s : TabBarState) (k : Nat) (t : TabTitle) :
    (removedState s k t).currentTitle = s.currentTitle :=
  releaseMouse_currentTitle s

lemma removeTitleAt_oor (s : TabBarState) (index : Int)
    (h : toInt32 index < 0 ∨ (s.titles.length : Int) ≤ toInt32 index) :
    removeTitleAt s index = (releaseMouseFn s, []) := by
  have hti := releaseMouse_titles s
  simp only [removeTitleAt, hti]
  rw [if_pos h]

lemma removeTitleAt_inrange (s : TabBarState) (index : Int) (k : Nat) (t : TabTitle)
    (hk : toInt32 index = (k : Int)) (ht : s.titles.get? k = some t) :
    removeTitleAt s index =
      (if s.currentTitle = some t then
        ({ (setCurrentTitle (removedState s k t)
              (nextTitle (removeAtL s.titles k) k)).1 with dirty := true },
         (setCurrentTitle (removedState s k t)
            (nextTitle (removeAtL s.titles k) k)).2)
      else ({ removedState s k t with dirty := true }, [])) := by
  have hti := releaseMouse_titles s
  have hcu := releaseMouse_currentTitle s
  have hlt : k < s.titles.length := (List.get?_eq_some.mp ht).1
  simp only [removeTitleAt, removedState, hti, hcu, hk, Int.toNat_ofNat, ht]
  rw [if_neg (by push_neg; exact ⟨Int.ofNat_nonneg k, by exact_mod_cast hlt⟩)]

lemma nextTitle_or (ts : List TabTitle) (k : Nat) :
    nextTitle ts k = (ts.get? k).or (ts.get? (k - 1)) := by
  unfold nextTitle
  cases ts.get? k <;> rfl

lemma nextTitle_mem (ts : List TabTitle) (k : Nat) (t2 : TabTitle)
    (h : nextTitle ts k = some t2) : t2 ∈ ts := by
  unfold nextTitle at h
  cases hg : ts.get? k with
  | some u =>
    rw [hg] at h
    cases h
    exact List.get?_mem hg
  | none =>
    rw [hg] at h
    exact List.get?_mem h

lemma setCurrentTitle_next (s : TabBarState) (k : Nat) :
    (setCurrentTitle s (nextTitle s.titles k)).1.currentTitle = nextTitle s.titles k := by
  cases hn : nextTitle s.titles k with
  | none => rw [setCurrentTitle_none_val]
  | some t2 =>
    exact setCurrentTitle_member s t2 (nextTitle_mem s.titles k t2 hn)

lemma evtClick_hit (env : PressEnv) (s : TabBarState) (e : MouseEvt)
    (k : Nat) (t : TabTitle)
    (hb : e.button = 0)
    (hhit : hitTestTabs env.tabRects e.clientX e.clientY = (k : Int))
    (ht : s.titles.get? k = some t) :
    evtClick env s e =
      (if t.closable = false then (true, [])
       else if env.closeIconHit.getD k false = false then (true, [])
       else (true, [TabEvent.tabCloseRequested t])) := by
  have h0 : ¬ ((k : Int) < 0) := by omega
  simp only [evtClick, hb]
  rw [if_neg (by simp), hhit, if_neg h0, Int.toNat_ofNat, ht]

/-! ### Claim theorems -/

/-- C9: `releaseMouse()` is an idempotent no-op-safe operation: with
no open drag session it changes nothing; applying it twice gives the
same state as applying it once; and when a session is open, the first
call clears the session reference and removes the document capture
listeners. -/
theorem releaseMouse_idempotent (s : TabBarState) :
    releaseMouseFn (releaseMouseFn s) = releaseMouseFn s ∧
    (s.dragData = none → releaseMouseFn s = s) ∧
    (∀ d, s.dragData = some d →
      (releaseMouseFn s).dragData = none ∧
      (releaseMouseFn s).docListeners = false) := by
  refine ⟨?_, releaseMouse_of_none s, ?_⟩
  · rcases releaseMouse_dragData s with h | h
    · exact releaseMouse_of_none _ h
    · rw [h]
      exact h
  · intro d hd
    unfold releaseMouseFn
    rw [hd]
    by_cases hb : d.dragActive = false <;> simp [hb]

/-- C9 witness: at the concrete mid-drag state, a second release does
nothing further, and the first call has cleared the session and the
document listeners. -/
theorem releaseMouse_idempotent_witness :
    releaseMouseFn (releaseMouseFn exDragState) = releaseMouseFn exDragState ∧
    (releaseMouseFn exDragState).dragData = none ∧
    (releaseMouseFn exDragState).docListeners = false := by
  have h := releaseMouse_idempotent exDragState
  exact ⟨h.1, (h.2.2 exDrag (by decide)).1, (h.2.2 exDrag (by decide)).2⟩

/-- C8: a left-button click hitting a tab stops propagation, and
emits `tabCloseRequested` with that tab's title exactly when the
title is closable and the click target lies inside the tab's
close-icon node; otherwise nothing is emitted. -/
theorem click_close_rules (env : PressEnv) (s : TabBarState) (e : MouseEvt)
    (k : Nat) (t : TabTitle)
    (hb : e.button = 0)
    (hhit : hitTestTabs env.tabRects e.clientX e.clientY = (k : Int))
    (ht : s.titles.get? k = some t) :
    (evtClick env s e).1 = true ∧
    ((evtClick env s e).2 = [TabEvent.tabCloseRequested t] ↔
      (t.closable = true ∧ env.closeIconHit.getD k false = true)) ∧
    (¬ (t.closable = true ∧ env.closeIconHit.getD k false = true) →
      (evtClick env s e).2 = []) := by
  rw [evtClick_hit env s e k t hb hhit ht]
  simp only [List.getD_eq_getElem?_getD]
  by_cases hc : t.closable = false
  · rw [if_pos hc]
    refine ⟨rfl, by simp [hc], fun _ => rfl⟩
  · rw [if_neg hc]
    by_cases hi : env.closeIconHit[k]?.getD false = false
    · rw [if_pos hi]
      refine ⟨rfl, by simp [hi], fun _ => rfl⟩
    · rw [if_neg hi]
      refine ⟨rfl, by simp [hc, hi], by simp [hc, hi]⟩

/-- C8 witness: a left click at (150, 10) hits the second tab of
`exState` (title `tB`, closable) outside its close icon: propagation
stops and nothing is emitted; the same click with the target inside
the close icon emits `tabCloseRequested tB`. -/
theorem click_close_rules_witness :
    (evtClick exEnv exState exPress).1 = true ∧
    (evtClick exEnv exState exPress).2 = [] ∧
    (evtClick ⟨exEnv.tabRects, [false, true], exEnv.tabOffsetLefts⟩
        exState exPress).2 = [TabEvent.tabCloseRequested tB] := by
  have h1 := click_close_rules exEnv exState exPress 1 tB (by decide) (by decide) (by decide)
  have h2 := click_close_rules ⟨exEnv.tabRects, [false, true], exEnv.tabOffsetLefts⟩
    exState exPress 1 tB (by decide) (by decide) (by decide)
  exact ⟨h1.1, h1.2.2 (by decide), h2.2.1.mpr (by decide)⟩

/-- C10: removing a valid, non-current title (with no drag session
open, so that the pre-mutation mouse-release guard is the identity)
affects only the title collection, the removed title's
change-notification subscription, and the dirty flag; the current
title, all other fields, and the emitted notifications (none) are
untouched. -/
theorem removeTitleAt_frame (s : TabBarState) (index : Int) (k : Nat) (t : TabTitle)
    (hdrag : s.dragData = none)
    (hk : toInt32 index = (k : Int))
    (ht : s.titles.get? k = some t)
    (hcur : s.currentTitle ≠ some t) :
    removeTitleAt s index =
      ({ s with titles := removeAtL s.titles k,
                connected := s.connected.erase t,
                dirty := true }, []) := by
  have hrel := releaseMouse_of_none s hdrag
  rw [removeTitleAt_inrange s index k t hk ht, if_neg hcur]
  simp only [removedState, hrel]

/-- C10 witness: removing the non-current title `tB` at index 1 of
`exState` leaves `currentTitle` at `tA` and changes exactly the
collection, the subscription list, and the dirty flag. -/
theorem removeTitleAt_frame_witness :
    removeTitleAt exState 1 =
      ({ exState with titles := [tA], connected := [tA], dirty := true }, []) := by
  have h := removeTitleAt_frame exState 1 1 tB (by decide) (by decide) (by decide) (by decide)
  rw [h]
  decide

/-- C4: `insertTitle(index, title)` resolves the requested index with
`clampNew` into `[0, count]` when the title is new (the title lands
at the resolved slot and the collection grows by one), and with
`clampMove` into `[0, count-1]` when the title is already a member
(so a move to the conceptual end lands at the last slot); when a
member's resolved index equals its current index the call changes
nothing beyond the documented pre-mutation mouse release. -/
theorem insertTitle_clamps (s : TabBarState) (index : Int) (t : TabTitle) :
    (t ∉ s.titles →
      (insertTitle s index t).1.titles =
        insertAt s.titles (clampNew index s.titles.length).toNat t ∧
      (insertTitle s index t).1.titles.get?
        (clampNew index s.titles.length).toNat = some t ∧
      (insertTitle s index t).1.titles.length = s.titles.length + 1 ∧
      0 ≤ clampNew index s.titles.length ∧
      clampNew index s.titles.length ≤ (s.titles.length : Int)) ∧
    (∀ k : Nat, findPos t s.titles = some k →
      0 ≤ clampMove index s.titles.length ∧
      clampMove index s.titles.length < (s.titles.length : Int) ∧
      (insertTitle s index t).1.titles.get?
        (clampMove index s.titles.length).toNat = some t ∧
      ((k : Int) = clampMove index s.titles.length →
        insertTitle s index t = (releaseMouseFn s, []))) := by
  constructor
  · intro hmem
    have hT := insertTitle_new_titles s index t hmem
    have hle : (clampNew index s.titles.length).toNat ≤ s.titles.length := by
      have := clampNew_le index s.titles.length
      omega
    refine ⟨hT, ?_, ?_, clampNew_nonneg index _, clampNew_le index _⟩
    · rw [hT]
      exact insertAt_get_self t s.titles _ hle
    · rw [hT]
      exact insertAt_length t s.titles _
  · intro k hk
    have hget := findPos_get t s.titles k hk
    have hklt : k < s.titles.length := (List.get?_eq_some.mp hget).1
    have hn : 1 ≤ s.titles.length := by omega
    obtain ⟨hm0, hm1⟩ := clampMove_bounds index s.titles.length hn
    have hshape := insertTitle_member_shape s index t k hk
    refine ⟨hm0, hm1, ?_, hshape.1⟩
    by_cases he : (k : Int) = clampMove index s.titles.length
    · rw [hshape.1 he, releaseMouse_titles, ← he, Int.toNat_ofNat]
      exact hget
    · rw [hshape.2 he]
      show (moveList s.titles (k : Int) (clampMove index s.titles.length)).get?
        (clampMove index s.titles.length).toNat = some t
      obtain ⟨jn, hjn⟩ : ∃ jn : Nat, (jn : Int) = clampMove index s.titles.length :=
        ⟨(clampMove index s.titles.length).toNat, Int.toNat_of_nonneg hm0⟩
      rw [← hjn, Int.toNat_ofNat]
      exact moveList_get_self s.titles k jn t hget (by omega)

/-- C4 witness: on `[tA, tB]`, moving the member `tA` to requested
index 10 resolves to the last slot (index 1), and re-inserting the
member `tB` at its resolved current index 1 is a no-op. -/
theorem insertTitle_clamps_witness :
    (insertTitle exState 10 tA).1.titles.get?
        (clampMove 10 exState.titles.length).toNat = some tA ∧
    insertTitle exState 1 tB = (releaseMouseFn exState, []) := by
  have h1 := (insertTitle_clamps exState 10 tA).2 0 (by decide)
  have h2 := (insertTitle_clamps exState 1 tB).2 1 (by decide)
  exact ⟨h1.2.2.1, h2.2.2.2 (by decide)⟩

/-- C5: `removeTitleAt(index)` with an out-of-range index changes
nothing beyond the pre-mutation mouse release; with a valid index it
removes that title, and when the removed title was current the
current title becomes the title now at the same index, else the new
last title, else null. -/
theorem removeTitleAt_spec (s : TabBarState) (index : Int) :
    ((toInt32 index < 0 ∨ (s.titles.length : Int) ≤ toInt32 index) →
      removeTitleAt s index = (releaseMouseFn s, [])) ∧
    (∀ k : Nat, toInt32 index = (k : Int) → ∀ t, s.titles.get? k = some t →
      (removeTitleAt s index).1.titles = removeAtL s.titles k ∧
      (s.currentTitle = some t →
        (removeTitleAt s index).1.currentTitle =
          ((removeAtL s.titles k).get? k).or ((removeAtL s.titles k).get? (k - 1)))) := by
  constructor
  · exact removeTitleAt_oor s index
  · intro k hk t ht
    have hshape := removeTitleAt_inrange s index k t hk ht
    constructor
    · rw [hshape]
      by_cases hcur : s.currentTitle = some t
      · rw [if_pos hcur]
        show (setCurrentTitle (removedState s k t)
          (nextTitle (removeAtL s.titles k) k)).1.titles = _
        rw [setCurrentTitle_titles, removedState_titles]
      · rw [if_neg hcur]
        exact removedState_titles s k t
    · intro hcur
      rw [hshape, if_pos hcur]
      show (setCurrentTitle (removedState s k t)
        (nextTitle (removeAtL s.titles k) k)).1.currentTitle = _
      rw [← nextTitle_or]
      have hnx := setCurrentTitle_next (removedState s k t) k
      rw [removedState_titles] at hnx
      exact hnx

/-- C5 witness: on `[tA, tB]` with `tA` current, removing index 5 is
a no-op, and removing index 0 removes `tA` and falls forward to the
title now occupying index 0, namely `tB`. -/
theorem removeTitleAt_spec_witness :
    removeTitleAt exState 5 = (releaseMouseFn exState, []) ∧
    (removeTitleAt exState 0).1.titles = [tB] ∧
    (removeTitleAt exState 0).1.currentTitle = some tB := by
  have h1 := (removeTitleAt_spec exState 5).1 (by decide)
  have h2 := (removeTitleAt_spec exState 0).2 0 (by decide) tA (by decide)
  refine ⟨h1, ?_, ?_⟩
  · rw [h2.1]
    decide
  · rw [h2.2 (by decide)]
    decide

/-- C6 counterexample: on a bar holding `[tA]` with `tA` current,
assigning the non-member `tB` to `currentTitle` coerces the stored
value to null and DOES fire a `currentChanged` notification (old
`tA`, new null), contradicting the claim that a non-member
assignment fires no notification. -/
theorem currentTitle_nonmember_fires :
    (setCurrentTitle st1 (some tB)).2 = [TabEvent.currentChanged (some tA) none] ∧
    (setCurrentTitle st1 (some tB)).2 ≠ [] := by decide

/-- C6 amended: assigning the already-current title (while it is a
member) fires no notification; assigning a non-member coerces the
stored value to null, which fires no notification when the previous
current was already null, and fires `currentChanged(old, null)` when
a current title existed. -/
theorem currentTitle_assign_rules (s : TabBarState) (t : TabTitle) :
    (s.currentTitle = some t → t ∈ s.titles →
      setCurrentTitle s (some t) = (s, [])) ∧
    (t ∉ s.titles →
      (setCurrentTitle s (some t)).1.currentTitle = none ∧
      (s.currentTitle = none → setCurrentTitle s (some t) = (s, [])) ∧
      (∀ c, s.currentTitle = some c →
        (setCurrentTitle s (some t)).2 =
          [TabEvent.currentChanged (some c) none])) := by
  constructor
  · intro hcur hmem
    simp only [setCurrentTitle, coerce_member s t hmem, hcur]
    rw [if_pos trivial]
  · intro hmem
    have hc := coerce_not_member s t hmem
    refine ⟨?_, ?_, ?_⟩
    · rw [setCurrentTitle_eq_coerce, hc]
    · intro h0
      simp only [setCurrentTitle, hc, h0]
      rw [if_pos trivial]
    · intro c hcc
      simp only [setCurrentTitle, hc, hcc]
      rw [if_neg (by simp : ¬ ((none : Option TabTitle) = some c))]

/-- C6 witness (for the amended claim): re-assigning the current
member `tA` is silent; assigning the non-member `tB` stores null and
fires `currentChanged (some tA) none`. -/
theorem currentTitle_assign_rules_witness :
    setCurrentTitle st1 (some tA) = (st1, []) ∧
    (setCurrentTitle st1 (some tB)).1.currentTitle = none ∧
    (setCurrentTitle st1 (some tB)).2 = [TabEvent.currentChanged (some tA) none] := by
  have h1 := (currentTitle_assign_rules st1 tA).1 (by decide) (by decide)
  have h2 := (currentTitle_assign_rules st1 tB).2 (by decide)
  exact ⟨h1, h2.1, h2.2.2 tA (by decide)⟩

/-- C7 counterexample: after inserting `tA` into an empty bar and
assigning `currentTitle := null` (leaving the bar non-empty with no
current title), inserting the subsequent title `tB` DOES change the
current title, from null to `tB` — contradicting the claim that
inserting any subsequent title never changes the current title. -/
theorem insertTitle_changes_current_after_null :
    (setCurrentTitle (insertTitle initState 0 tA).1 none).1.titles = [tA] ∧
    (setCurrentTitle (insertTitle initState 0 tA).1 none).1.currentTitle = none ∧
    (insertTitle (setCurrentTitle (insertTitle initState 0 tA).1 none).1 1 tB).1.currentTitle
      = some tB := by decide

/-- C7 amended: inserting the first title into an empty tab bar makes
it current; inserting while a current title exists never changes the
current title; and inserting a new title while `currentTitle` is null
(whether or not the bar is empty) makes the inserted title current. -/
theorem insertTitle_current_rules (s : TabBarState) (index : Int) (t : TabTitle) :
    (s.titles = [] → s.currentTitle = none →
      (insertTitle s index t).1.currentTitle = some t) ∧
    (∀ c, s.currentTitle = some c →
      (insertTitle s index t).1.currentTitle = some c) ∧
    (s.currentTitle = none → t ∉ s.titles →
      (insertTitle s index t).1.currentTitle = some t) := by
  have hthird : s.currentTitle = none → t ∉ s.titles →
      (insertTitle s index t).1.currentTitle = some t := by
    intro h0 hmem
    rw [insertTitle_new_current s index t hmem, if_pos h0]
  refine ⟨?_, ?_, hthird⟩
  · intro hemp h0
    exact hthird h0 (by rw [hemp]; exact List.not_mem_nil t)
  · intro c hcur
    by_cases hmem : t ∈ s.titles
    · obtain ⟨k, hk⟩ :=
        Option.isSome_iff_exists.mp ((findPos_isSome_iff t s.titles).mpr hmem)
      have hshape := insertTitle_member_shape s index t k hk
      by_cases he : (k : Int) = clampMove index s.titles.length
      · rw [hshape.1 he]
        show (releaseMouseFn s).currentTitle = some c
        rw [releaseMouse_currentTitle]
        exact hcur
      · rw [hshape.2 he]
        show (releaseMouseFn s).currentTitle = some c
        rw [releaseMouse_currentTitle]
        exact hcur
    · rw [insertTitle_new_current s index t hmem, if_neg (by rw [hcur]; simp)]
      exact hcur

/-- C7 witness (for the amended claim): the first insertion into the
empty bar makes `tA` current, and inserting `tB` in front of the
current `tA` on `[tA, tB]` leaves `tA` current. -/
theorem insertTitle_current_rules_witness :
    (insertTitle initState 0 tA).1.currentTitle = some tA ∧
    (insertTitle exState 0 tB).1.currentTitle = some tA := by
  have h1 := (insertTitle_current_rules initState 0 tA).1 (by decide) (by decide)
  have h2 := (insertTitle_current_rules exState 0 tB).2.1 tA (by decide)
  exact ⟨h1, h2⟩

/-- C3 counterexample: `clearTitles()` empties the collection but
never reassigns the stored current title, so after clearing the bar
`[tA]` (with `tA` current) `currentTitle` still returns `tA`, which
is no longer a member — the claimed invariant fails after the public
operation `clearTitles`. -/
theorem clearTitles_stale_current :
    (clearTitles st1).1.titles = [] ∧
    (clearTitles st1).1.currentTitle = some tA ∧
    currentValidB (clearTitles st1).1 = false := by decide

/-- C3 amended: after `insertTitle`, `removeTitleAt`, `removeTitle`,
and assignment to `currentTitle`, the current title is null or a
member of the collection; `clearTitles` (and the title-clearing in
`dispose`, which defers any property reset to the external widget
base) is excluded, since it empties the collection without touching
the stored current title. -/
theorem current_selection_invariant (s : TabBarState) (h : currentValidB s = true) :
    (∀ index t, currentValidB (insertTitle s index t).1 = true) ∧
    (∀ index, currentValidB (removeTitleAt s index).1 = true) ∧
    (∀ t, currentValidB (removeTitle s t).1 = true) ∧
    (∀ v, currentValidB (setCurrentTitle s v).1 = true) := by
  have hrel : currentValidB (releaseMouseFn s) = true := by
    rw [currentValidB_releaseMouse]
    exact h
  have hmemof := (currentValidB_iff s).mp h
  have hins : ∀ index t, currentValidB (insertTitle s index t).1 = true := by
    intro index t
    by_cases hmem : t ∈ s.titles
    · obtain ⟨k, hk⟩ :=
        Option.isSome_iff_exists.mp ((findPos_isSome_iff t s.titles).mpr hmem)
      have hshape := insertTitle_member_shape s index t k hk
      by_cases he : (k : Int) = clampMove index s.titles.length
      · rw [hshape.1 he]
        exact hrel
      · rw [hshape.2 he]
        rw [currentValidB_iff]
        intro u hu
        have hu2 : s.currentTitle = some u := by
          rw [← releaseMouse_currentTitle s]
          exact hu
        show u ∈ moveList s.titles (k : Int) (clampMove index s.titles.length)
        exact (moveList_perm _ _ _).mem_iff.mpr (hmemof u hu2)
    · rw [currentValidB_iff]
      intro u hu
      rw [insertTitle_new_titles s index t hmem]
      rw [insertTitle_new_current s index t hmem] at hu
      by_cases h0 : s.currentTitle = none
      · rw [if_pos h0] at hu
        cases hu
        exact (insertAt_perm t s.titles _).mem_iff.mpr (List.mem_cons_self t s.titles)
      · rw [if_neg h0] at hu
        exact (insertAt_perm t s.titles _).mem_iff.mpr
          (List.mem_cons_of_mem t (hmemof u hu))
  have hrem : ∀ index, currentValidB (removeTitleAt s index).1 = true := by
    intro index
    by_cases hoor : toInt32 index < 0 ∨ (s.titles.length : Int) ≤ toInt32 index
    · rw [removeTitleAt_oor s index hoor]
      exact hrel
    · push_neg at hoor
      obtain ⟨h0, hlen⟩ := hoor
      obtain ⟨k, hkk⟩ : ∃ k : Nat, toInt32 index = (k : Int) :=
        ⟨(toInt32 index).toNat, (Int.toNat_of_nonneg h0).symm⟩
      have hklt : k < s.titles.length := by omega
      obtain ⟨t, ht⟩ : ∃ t, s.titles.get? k = some t := by
        cases hg : s.titles.get? k with
        | none => exact absurd (List.get?_eq_none.mp hg) (by omega)
        | some t => exact ⟨t, rfl⟩
      rw [removeTitleAt_inrange s index k t hkk ht]
      by_cases hcur : s.currentTitle = some t
      · rw [if_pos hcur]
        exact setCurrentTitle_valid (removedState s k t) (nextTitle (removeAtL s.titles k) k)
      · rw [if_neg hcur]
        rw [currentValidB_iff]
        intro u hu
        have hu2 : s.currentTitle = some u := by
          rw [← releaseMouse_currentTitle s]
          exact hu
        show u ∈ removeAtL s.titles k
        exact mem_removeAtL_of_ne u t s.titles k ht (hmemof u hu2)
          (fun hut => hcur (hut ▸ hu2))
  refine ⟨hins, hrem, ?_, fun v => setCurrentTitle_valid s v⟩
  intro t
  unfold removeTitle
  exact hrem _

/-- C3 witness (for the amended claim): on the bar `[tA]` with `tA`
current, both an insertion and a removal preserve the selection
invariant. -/
theorem current_selection_invariant_witness :
    currentValidB (insertTitle st1 0 tB).1 = true ∧
    currentValidB (removeTitleAt st1 0).1 = true := by
  have h := current_selection_invariant st1 (by decide)
  exact ⟨h.1 0 tB, h.2.1 0⟩

/-- C1: releasing a left-button drag whose pending reorder target
differs from the starting index relocates the pressed title to the
target index and emits `tabMoved` with the title, its from-index and
its to-index; when the target equals the starting index, no
notification is emitted. -/
theorem mouseUp_reorders (s : TabBarState) (d : DragData) (e : MouseEvt) (j : Nat)
    (hd : s.dragData = some d)
    (hb : e.button = 0)
    (ha : d.dragActive = true)
    (ht : s.titles.get? d.tabIndex = some d.title) :
    (d.tabTargetIndex = (j : Int) → j ≠ d.tabIndex → j < s.titles.length →
      (evtMouseUp s e).1.titles = moveList s.titles (d.tabIndex : Int) (j : Int) ∧
      (evtMouseUp s e).1.titles.get? j = some d.title ∧
      (evtMouseUp s e).2 = [TabEvent.tabMoved d.title d.tabIndex j]) ∧
    (d.tabTargetIndex = (d.tabIndex : Int) → (evtMouseUp s e).2 = []) := by
  constructor
  · intro htgt hne hlt
    have hcond : 0 ≤ d.tabTargetIndex ∧ d.tabTargetIndex ≠ (d.tabIndex : Int) := by
      rw [htgt]
      refine ⟨Int.ofNat_nonneg j, ?_⟩
      exact_mod_cast hne
    simp only [evtMouseUp, hd, hb, ha]
    rw [if_neg (by simp), if_neg (by simp), if_pos hcond]
    refine ⟨?_, ?_, ?_⟩
    · show moveList s.titles (d.tabIndex : Int) d.tabTargetIndex =
        moveList s.titles (d.tabIndex : Int) (j : Int)
      rw [htgt]
    · show (moveList s.titles (d.tabIndex : Int) d.tabTargetIndex).get? j = some d.title
      rw [htgt]
      exact moveList_get_self s.titles d.tabIndex j d.title ht hlt
    · show [TabEvent.tabMoved d.title d.tabIndex d.tabTargetIndex.toNat] =
        [TabEvent.tabMoved d.title d.tabIndex j]
      rw [htgt, Int.toNat_ofNat]
  · intro htgt
    simp only [evtMouseUp, hd, hb, ha]
    rw [if_neg (by simp), if_neg (by simp),
        if_neg (by rw [htgt]; simp)]

/-- C1 witness: the worked example — on `[tA, tB]` press `tB` at
(150, 10), drag leftward past `tA`'s midpoint to (10, 10) (recording
target slot 0), then release: the collection becomes `[tB, tA]` and
`tabMoved (tB, 1, 0)` fires. -/
theorem mouseUp_reorders_witness :
    (evtMouseUp exDragState ⟨0, 10, 10⟩).1.titles = [tB, tA] ∧
    (evtMouseUp exDragState ⟨0, 10, 10⟩).2 = [TabEvent.tabMoved tB 1 0] := by
  have h := (mouseUp_reorders exDragState exDrag ⟨0, 10, 10⟩ 0 (by decide) rfl
      (by decide) (by decide)).1 (by decide) (by decide) (by decide)
  refine ⟨?_, h.2.2⟩
  rw [h.1]
  decide

lemma activateDrag_detachRequested (geo : Geometry) (d : DragData) :
    (activateDrag geo d).detachRequested = d.detachRequested := by
  unfold activateDrag
  split <;> rfl

lemma activateDrag_title (geo : Geometry) (d : DragData) :
    (activateDrag geo d).title = d.title := by
  unfold activateDrag
  split <;> rfl

lemma activateDrag_tabIndex (geo : Geometry) (d : DragData) :
    (activateDrag geo d).tabIndex = d.tabIndex := by
  unfold activateDrag
  split <;> rfl

lemma activateDrag_contentRect (geo : Geometry) (d : DragData) :
    (activateDrag geo d).contentRect.getD geo.contentRect =
      (if d.dragActive then d.contentRect.getD geo.contentRect
       else geo.contentRect) := by
  unfold activateDrag
  split <;> rfl

lemma evtMouseMove_flagged (geo : Geometry) (s : TabBarState) (e : MouseEvt) (d : DragData)
    (hd : s.dragData = some d) (hflag : d.detachRequested = true) :
    (evtMouseMove geo s e).2 = [] ∧
    ∃ d2, (evtMouseMove geo s e).1.dragData = some d2 ∧ d2.detachRequested = true := by
  simp only [evtMouseMove, hd]
  by_cases h1 : d.dragActive = false ∧ (e.clientX - d.pressX).natAbs < dragThreshold ∧
      (e.clientY - d.pressY).natAbs < dragThreshold
  · rw [if_pos h1]
    exact ⟨rfl, d, hd, hflag⟩
  · rw [if_neg h1]
    have hd1 : (activateDrag geo d).detachRequested = true := by
      rw [activateDrag_detachRequested]
      exact hflag
    rw [if_neg (by rw [hd1]; simp), if_pos hd1]
    refine ⟨rfl, activateDrag geo d, ?_, hd1⟩
    split <;> rfl

lemma runMoves_flagged (geo : Geometry) (es : List MouseEvt) :
    ∀ (s : TabBarState) (d : DragData), s.dragData = some d → d.detachRequested = true →
      (runMoves geo s es).2 = [] := by
  induction es with
  | nil =>
    intro s d _ _
    rfl
  | cons e es ih =>
    intro s d hd hflag
    obtain ⟨h2, d2, hd2, hflag2⟩ := evtMouseMove_flagged geo s e d hd hflag
    simp only [runMoves]
    rw [h2, List.nil_append]
    exact ih _ d2 hd2 hflag2

lemma evtMouseMove_detach (geo : Geometry) (s : TabBarState) (e : MouseEvt) (d : DragData)
    (hd : s.dragData = some d)
    (hflag : d.detachRequested = false)
    (hgate : ¬ (d.dragActive = false ∧ (e.clientX - d.pressX).natAbs < dragThreshold ∧
        (e.clientY - d.pressY).natAbs < dragThreshold))
    (hout : detachExcursion
        (if d.dragActive then d.contentRect.getD geo.contentRect else geo.contentRect) e
        = true) :
    (evtMouseMove geo s e).2 =
      [TabEvent.tabDetachRequested d.title d.tabIndex e.clientX e.clientY] ∧
    ∃ d2, (evtMouseMove geo s e).1.dragData = some d2 ∧ d2.detachRequested = true := by
  simp only [evtMouseMove, hd]
  rw [if_neg hgate]
  have hd1f : (activateDrag geo d).detachRequested = false := by
    rw [activateDrag_detachRequested]
    exact hflag
  rw [if_pos ⟨hd1f, by rw [activateDrag_contentRect]; exact hout⟩]
  refine ⟨?_, { activateDrag geo d with detachRequested := true }, rfl, rfl⟩
  show [TabEvent.tabDetachRequested (activateDrag geo d).title
    (activateDrag geo d).tabIndex e.clientX e.clientY] = _
  rw [activateDrag_title, activateDrag_tabIndex]

/-- C2: within one drag session, the first movement that leaves the
content rect by more than the tear-off threshold emits exactly one
`tabDetachRequested` carrying the dragged title, its original index,
and the live pointer coordinates; the whole remainder of the session
emits no further detach notification. -/
theorem detach_fires_once (geo : Geometry) (s : TabBarState) (d : DragData)
    (e : MouseEvt) (es : List MouseEvt)
    (hd : s.dragData = some d)
    (hflag : d.detachRequested = false)
    (hgate : ¬ (d.dragActive = false ∧ (e.clientX - d.pressX).natAbs < dragThreshold ∧
        (e.clientY - d.pressY).natAbs < dragThreshold))
    (hout : detachExcursion
        (if d.dragActive then d.contentRect.getD geo.contentRect else geo.contentRect) e
        = true) :
    (runMoves geo s (e :: es)).2 =
      [TabEvent.tabDetachRequested d.title d.tabIndex e.clientX e.clientY] := by
  obtain ⟨h2, d2, hd2, hflag2⟩ := evtMouseMove_detach geo s e d hd hflag hgate hout
  simp only [runMoves]
  rw [h2, runMoves_flagged geo es _ d2 hd2 hflag2, List.append_nil]

/-- C2 witness: after pressing `tB`, a move to (-30, 10) crosses the
content area's left edge by 30 > 20 pixels and fires the single
`tabDetachRequested (tB, 1, -30, 10)`; the two further moves of the
same session fire nothing. -/
theorem detach_fires_once_witness :
    (runMoves exGeo exPressedState [exFarMove, exFarMove, exBigMove]).2 =
      [TabEvent.tabDetachRequested tB 1 (-30) 10] := by
  exact detach_fires_once exGeo exPressedState exDrag0 exFarMove [exFarMove, exBigMove]
    (by decide) (by decide) (by decide) (by decide)
